import Mathlib

/-!
Verification of the order-independent collection hashing library
(`hash_by_summing_hashes`, `hash_by_summing_hashes_with`, the context
selectors `UseDefaultHasher` / `UseProvidedHasher`, and the wrappers
`SumHashes` / `SumHashesAnyCollection`).

Shallow embedding conventions:

* A std `Hasher` is modelled by `HasherAlg`: a state type, a write
  operation consuming one primitive value (all primitive writes are
  collapsed into 64-bit writes carrying a `Nat`), and a `finish`
  finalizer producing the 64-bit digest.
* A value's `Hash` implementation (the stream of primitive writes it
  feeds to a hasher) is modelled by a representation function
  `repr : α → List Nat`; `Hash::hash(&value, &mut hasher)` is `hashInto`.
* A collection `C` (any type whose references iterate) is modelled by
  its carrier type together with an iteration function
  `iter : C → List α` giving the order in which iteration yields its
  elements.  Unordered equality of collections is `List.Perm` of their
  iterations.
* The trait `BuildHasherFromFriend<F>` is a structure bundling the
  hasher algorithm with the factory `build_hasher_from : F → State`.
* `std::hash::BuildHasher` is `BuildHasherM`: a context that builds a
  fresh hasher (initial state) of a fixed algorithm; `ProvidesHasher`
  exposes such a context from the collection, as the trait of the same
  name does for `HashMap`/`HashSet`.
* The concrete algorithm of `DefaultHasher` is out of scope (an external
  collaborator); it appears as an arbitrary `HasherAlg` `D` together
  with the fresh state `d0` that `DefaultHasher::new()` returns.
-/

/-- 2^64: the modulus of the wrapping 64-bit arithmetic used by the
running sum (`Wrapping<u64>` in the source). -/
def U64 : Nat := 2 ^ 64

/-- Model of a std `Hasher` algorithm: a stateful accumulator with a
primitive write operation and a finalizer producing the 64-bit digest. -/
structure HasherAlg where
  State : Type
  writeU64 : State → Nat → State
  finish : State → Nat

/-- Model of `Hash::hash(&value, &mut hasher)`: feed the value's full
hashable representation (its stream of primitive writes) into the hasher. -/
def hashInto (A : HasherAlg) {α : Type} (repr : α → List Nat) (value : α)
    (hasher : A.State) : A.State :=
  List.foldl A.writeU64 hasher (repr value)

/-- Model of the trait `BuildHasherFromFriend<F>`: a hasher algorithm
together with the factory creating a fresh hasher from the peer object. -/
structure BuildHasherFromFriend (F : Type) where
  alg : HasherAlg
  build_hasher_from : F → alg.State

/-- Model of std `BuildHasher` for algorithm `A`: `build_hasher` returns
a fresh hasher, i.e. an initial state. -/
structure BuildHasherM (A : HasherAlg) where
  build_hasher : A.State

/-- Model of the trait `ProvidesHasher`: the collection exposes a
reference to its own hashing context (`hasher(&self) -> &S` with
`S : BuildHasher`), as `HashMap::hasher` / `HashSet::hasher` do. -/
structure ProvidesHasher (C : Type) (A : HasherAlg) where
  hasher : C → BuildHasherM A

/-- Model of the struct `UseDefaultHasher`: its `BuildHasherFromFriend`
implementation ignores the peer and returns `DefaultHasher::new()`, the
same fresh default hasher state `d0` of the fixed default algorithm `D`,
for every peer. -/
def UseDefaultHasher (C : Type) (D : HasherAlg) (d0 : D.State) :
    BuildHasherFromFriend C :=
  ⟨D, fun _ => d0⟩

/-- Model of the struct `UseProvidedHasher<C>`: its
`BuildHasherFromFriend` implementation obtains the peer's own context
and asks it to build a hasher (`ProvidesHasher::hasher(friend).build_hasher()`). -/
def UseProvidedHasher {C : Type} {A : HasherAlg} (ph : ProvidesHasher C A) :
    BuildHasherFromFriend C :=
  ⟨A, fun friend => (ph.hasher friend).build_hasher⟩

/-- Model of `hash_by_summing_hashes_with`: fold over the elements
yielded by iterating the collection, per element building a fresh hasher
from the factory (passing the collection), feeding the element into it,
finalizing, and adding the digest into the running sum with wrapping
(mod 2^64) arithmetic starting from zero; finally write the sum into the
caller's hasher as a single 64-bit value. -/
def hash_by_summing_hashes_with {C α : Type} (iter : C → List α)
    (repr : α → List Nat) (BH : BuildHasherFromFriend C) (H : HasherAlg)
    (collection : C) (state : H.State) : H.State :=
  let sum := List.foldl
    (fun sum value =>
      let hasher := BH.build_hasher_from collection
      let hasher := hashInto BH.alg repr value hasher
      (sum + BH.alg.finish hasher) % U64)
    0 (iter collection)
  H.writeU64 state sum

/-- Model of `hash_by_summing_hashes`: delegates to
`hash_by_summing_hashes_with` with the `UseDefaultHasher` selector. -/
def hash_by_summing_hashes {C α : Type} (iter : C → List α)
    (repr : α → List Nat) (D : HasherAlg) (d0 : D.State) (H : HasherAlg)
    (collection : C) (state : H.State) : H.State :=
  hash_by_summing_hashes_with iter repr (UseDefaultHasher C D d0) H collection state

/-- Model of the struct `SumHashesAnyCollection<C, H>`: a transparent
wrapper holding exactly the collection (the selector is a phantom type
parameter, carried here as a value index). -/
structure SumHashesAnyCollection (C : Type) (BH : BuildHasherFromFriend C) where
  inner : C

/-- Model of `From<C> for SumHashesAnyCollection<C, H>`. -/
def SumHashesAnyCollection.from' {C : Type} (BH : BuildHasherFromFriend C)
    (value : C) : SumHashesAnyCollection C BH :=
  ⟨value⟩

/-- Model of `SumHashesAnyCollection::new`: defined via `From`. -/
def SumHashesAnyCollection.new {C : Type} (BH : BuildHasherFromFriend C)
    (value : C) : SumHashesAnyCollection C BH :=
  SumHashesAnyCollection.from' BH value

/-- Model of `SumHashesAnyCollection::into_inner`: destructures into the
inner collection. -/
def SumHashesAnyCollection.into_inner {C : Type} {BH : BuildHasherFromFriend C}
    (w : SumHashesAnyCollection C BH) : C :=
  w.inner

/-- Model of the `Hash` implementation for `SumHashesAnyCollection<C, BH>`:
it calls `hash_by_summing_hashes_with::<C, H, BH>(&self.0, state)`. -/
def SumHashesAnyCollection.hashImpl {C α : Type} {BH : BuildHasherFromFriend C}
    (iter : C → List α) (repr : α → List Nat) (H : HasherAlg)
    (w : SumHashesAnyCollection C BH) (state : H.State) : H.State :=
  hash_by_summing_hashes_with iter repr BH H w.inner state

/-- Model of the struct `SumHashes<C>`: a transparent wrapper whose single
field is `SumHashesAnyCollection<C, UseProvidedHasher<C>>`. -/
structure SumHashes (C : Type) {A : HasherAlg} (ph : ProvidesHasher C A) where
  inner : SumHashesAnyCollection C (UseProvidedHasher ph)

/-- Model of `From<C> for SumHashes<C>`: wraps via
`SumHashesAnyCollection::from`. -/
def SumHashes.from' {C : Type} {A : HasherAlg} (ph : ProvidesHasher C A)
    (value : C) : SumHashes C ph :=
  ⟨SumHashesAnyCollection.from' (UseProvidedHasher ph) value⟩

/-- Model of `SumHashes::new`: defined via `From`. -/
def SumHashes.new {C : Type} {A : HasherAlg} (ph : ProvidesHasher C A)
    (value : C) : SumHashes C ph :=
  SumHashes.from' ph value

/-- Model of `SumHashes::into_inner`: returns `self.0.0`. -/
def SumHashes.into_inner {C : Type} {A : HasherAlg} {ph : ProvidesHasher C A}
    (w : SumHashes C ph) : C :=
  w.inner.inner

/-- Model of the `Hash` implementation for `SumHashes<C>`: it hashes its
single field, i.e. delegates to the `Hash` implementation of
`SumHashesAnyCollection<C, UseProvidedHasher<C>>`. -/
def SumHashes.hashImpl {C α : Type} {A : HasherAlg} {ph : ProvidesHasher C A}
    (iter : C → List α) (repr : α → List Nat) (H : HasherAlg)
    (w : SumHashes C ph) (state : H.State) : H.State :=
  SumHashesAnyCollection.hashImpl iter repr H w.inner state

/-- The digest a single element contributes: finalize a fresh hasher,
built by the factory from the collection, after feeding the element. -/
def perElementDigest {C α : Type} (repr : α → List Nat)
    (BH : BuildHasherFromFriend C) (collection : C) (value : α) : Nat :=
  BH.alg.finish (hashInto BH.alg repr value (BH.build_hasher_from collection))

/-- Second definition, following the spec's words, of the Combiner:
map each yielded element to its per-element digest, take the sum of
those digests reduced modulo 2^64, and write that single 64-bit value
into the caller's external hasher. -/
def combine_spec {C α : Type} (iter : C → List α) (repr : α → List Nat)
    (BH : BuildHasherFromFriend C) (H : HasherAlg)
    (collection : C) (state : H.State) : H.State :=
  H.writeU64 state (((iter collection).map (perElementDigest repr BH collection)).sum % U64)

/-- Folding mod-2^64 additions of per-element digests equals the plain
sum of the digests reduced modulo 2^64. -/
theorem foldl_modAdd {α : Type} (f : α → Nat) :
    ∀ (l : List α) (a : Nat),
      List.foldl (fun s v => (s + f v) % U64) (a % U64) l
        = (a + (l.map f).sum) % U64
  | [], a => by simp
  | x :: l, a => by
    have h := foldl_modAdd f l (a + f x)
    simp only [List.foldl_cons, List.map_cons, List.sum_cons]
    rw [Nat.mod_add_mod, h, Nat.add_assoc]

/-- The Combiner writes, into the caller's hasher, the sum modulo 2^64 of
the per-element digests of the iterated elements. -/
theorem hash_with_eq_writeSum {C α : Type} (iter : C → List α)
    (repr : α → List Nat) (BH : BuildHasherFromFriend C) (H : HasherAlg)
    (c : C) (s : H.State) :
    hash_by_summing_hashes_with iter repr BH H c s
      = H.writeU64 s (((iter c).map (perElementDigest repr BH c)).sum % U64) := by
  have h := foldl_modAdd (perElementDigest repr BH c) (iter c) 0
  simp only [Nat.zero_mod, Nat.zero_add] at h
  show H.writeU64 s
    (List.foldl (fun sum value => (sum + perElementDigest repr BH c value) % U64)
      0 (iter c)) = _
  rw [h]

/-- Concrete hasher algorithm used to instantiate the model on concrete
inputs; it stands in for an external 64-bit hash algorithm (the actual
algorithm is an out-of-scope collaborator). -/
abbrev demoAlg : HasherAlg :=
  ⟨Nat, fun s x => (s + x + 1) % U64, fun s => s % U64⟩

/-- Concrete collection carrier: the elements in iteration order together
with the collection's own hashing-context seed, as a hash map carries its
randomly seeded build-hasher alongside its entries. -/
structure DemoColl where
  elems : List Nat
  seed : Nat

/-- Iteration of the demo collection yields its element list. -/
abbrev demoIter : DemoColl → List Nat := fun c => c.elems

/-- Hashable representation of a Nat element: a single primitive write. -/
abbrev demoRepr : Nat → List Nat := fun n => [n]

/-- The demo collection's own hashing context: builds hashers whose
initial state is the collection's seed (modelling a seeded BuildHasher). -/
abbrev demoProvides : ProvidesHasher DemoColl demoAlg :=
  ⟨fun c => ⟨c.seed⟩⟩

/-- C1 (amended): the Combiner produces identical digests for collections
that are equal as unordered collections, whenever the context selector
assigns both collections the same per-element hashing context (as the
default selector always does); in particular the digest is invariant
under every permutation of the order in which iteration yields the
elements. -/
theorem hash_perm_invariant_same_context {C α : Type} (iter : C → List α)
    (repr : α → List Nat) (BH : BuildHasherFromFriend C) (H : HasherAlg)
    (A B : C) (s : H.State)
    (hperm : (iter A).Perm (iter B))
    (hctx : BH.build_hasher_from A = BH.build_hasher_from B) :
    hash_by_summing_hashes_with iter repr BH H A s
      = hash_by_summing_hashes_with iter repr BH H B s := by
  rw [hash_with_eq_writeSum, hash_with_eq_writeSum]
  have hfun : perElementDigest repr BH A = perElementDigest repr BH B := by
    funext v
    simp [perElementDigest, hctx]
  rw [hfun, List.Perm.sum_eq (hperm.map _)]

/-- Witness for C1 (amended): two demo collections holding the same
elements in different iteration orders, hashed with the default selector,
receive the same digest. -/
theorem hash_perm_invariant_same_context_witness :
    (demoIter ⟨[1, 2, 3], 0⟩).Perm (demoIter ⟨[3, 1, 2], 7⟩) ∧
    hash_by_summing_hashes_with demoIter demoRepr
        (UseDefaultHasher DemoColl demoAlg 0) demoAlg ⟨[1, 2, 3], 0⟩ 0
      = hash_by_summing_hashes_with demoIter demoRepr
          (UseDefaultHasher DemoColl demoAlg 0) demoAlg ⟨[3, 1, 2], 7⟩ 0 :=
  ⟨by decide,
   hash_perm_invariant_same_context demoIter demoRepr
     (UseDefaultHasher DemoColl demoAlg 0) demoAlg ⟨[1, 2, 3], 0⟩ ⟨[3, 1, 2], 7⟩ 0
     (by decide) rfl⟩

/-- Counterexample to C1 as stated: two demo collections equal as
unordered collections (identical element multiset) but carrying different
hashing-context seeds receive different digests under the provided-hasher
selector, even though the context selector is the same. -/
theorem same_multiset_provided_context_digests_differ :
    (demoIter ⟨[5], 10⟩).Perm (demoIter ⟨[5], 11⟩) ∧
    hash_by_summing_hashes_with demoIter demoRepr
        (UseProvidedHasher demoProvides) demoAlg ⟨[5], 10⟩ 0
      ≠ hash_by_summing_hashes_with demoIter demoRepr
          (UseProvidedHasher demoProvides) demoAlg ⟨[5], 11⟩ 0 := by
  exact ⟨by decide, by decide⟩

/-- C2: under the borrowed-context selector the digest depends on the
collection's own hasher state, not only on its elements — two demo
collections with identical element lists but different context seeds get
different digests — while under the fixed default selector the digest is
a function of the multiset of elements alone. -/
theorem provided_context_digest_depends_on_context :
    ((demoIter ⟨[5], 21⟩ = demoIter ⟨[5], 22⟩) ∧
      hash_by_summing_hashes_with demoIter demoRepr
          (UseProvidedHasher demoProvides) demoAlg ⟨[5], 21⟩ 0
        ≠ hash_by_summing_hashes_with demoIter demoRepr
            (UseProvidedHasher demoProvides) demoAlg ⟨[5], 22⟩ 0) ∧
    (∀ (C α : Type) (iter : C → List α) (repr : α → List Nat) (D : HasherAlg)
        (d0 : D.State) (H : HasherAlg) (c : C) (s : H.State),
      hash_by_summing_hashes_with iter repr (UseDefaultHasher C D d0) H c s
        = H.writeU64 s ((Multiset.map (fun v => D.finish (hashInto D repr v d0))
            (iter c : Multiset α)).sum % U64)) := by
  refine ⟨⟨rfl, by decide⟩, ?_⟩
  intro C α iter repr D d0 H c s
  rw [hash_with_eq_writeSum]
  rfl

/-- C3: the Combiner computes exactly the specified algorithm — the sum,
modulo 2^64 starting from zero, of the digests obtained by building a
fresh per-element hasher from the factory (with the original collection
as input), feeding the element, and finalizing; and its whole effect on
the caller's hasher is the single 64-bit write of that final sum. -/
theorem hash_by_summing_hashes_with_eq_combine_spec {C α : Type}
    (iter : C → List α) (repr : α → List Nat) (BH : BuildHasherFromFriend C)
    (H : HasherAlg) (c : C) (s : H.State) :
    hash_by_summing_hashes_with iter repr BH H c s
      = combine_spec iter repr BH H c s :=
  hash_with_eq_writeSum iter repr BH H c s

/-- C4: for a fixed context (any default-style selector, which builds the
same fresh hasher regardless of the peer), two collections of possibly
different container types holding the same element multiset receive
identical digests — the result depends only on the multiset of
per-element hashes, not on container type. -/
theorem cross_structure_digest_eq {C₁ C₂ α : Type} (iter₁ : C₁ → List α)
    (iter₂ : C₂ → List α) (repr : α → List Nat) (D : HasherAlg) (d0 : D.State)
    (H : HasherAlg) (A : C₁) (B : C₂) (s : H.State)
    (hperm : (iter₁ A).Perm (iter₂ B)) :
    hash_by_summing_hashes_with iter₁ repr (UseDefaultHasher C₁ D d0) H A s
      = hash_by_summing_hashes_with iter₂ repr (UseDefaultHasher C₂ D d0) H B s := by
  rw [hash_with_eq_writeSum, hash_with_eq_writeSum]
  have hfun : perElementDigest repr (UseDefaultHasher C₁ D d0) A
      = perElementDigest repr (UseDefaultHasher C₂ D d0) B := rfl
  rw [hfun, List.Perm.sum_eq (hperm.map _)]

/-- Iteration of the demo map: its key/value entries in storage order. -/
abbrev demoMapIter : List (Int × String) → List (Int × String) := fun l => l

/-- Iteration of the demo set (a different container type): its elements
in storage order. -/
abbrev demoSetIter : Array (Int × String) → List (Int × String) := fun a => a.toList

/-- Hashable representation of an (Int, String) pair. -/
abbrev demoPairRepr : Int × String → List Nat :=
  fun p => [p.1.natAbs, p.2.length]

/-- Witness for C4: the four pairs of the concrete scenario, inserted in
given order into a map, in sorted-by-key order into another map, and into
a set keyed on the full pair, all hash identically under the fixed
default context. -/
theorem cross_structure_digest_eq_witness :
    (demoMapIter [(4, ""), (1, "hi"), (-3, "hello"), (20, "good bye")]).Perm
        (demoMapIter [(-3, "hello"), (1, "hi"), (4, ""), (20, "good bye")]) ∧
    (demoMapIter [(4, ""), (1, "hi"), (-3, "hello"), (20, "good bye")]).Perm
        (demoSetIter #[(20, "good bye"), (4, ""), (-3, "hello"), (1, "hi")]) ∧
    hash_by_summing_hashes_with demoMapIter demoPairRepr
        (UseDefaultHasher (List (Int × String)) demoAlg 0) demoAlg
        [(4, ""), (1, "hi"), (-3, "hello"), (20, "good bye")] 0
      = hash_by_summing_hashes_with demoMapIter demoPairRepr
          (UseDefaultHasher (List (Int × String)) demoAlg 0) demoAlg
          [(-3, "hello"), (1, "hi"), (4, ""), (20, "good bye")] 0 ∧
    hash_by_summing_hashes_with demoMapIter demoPairRepr
        (UseDefaultHasher (List (Int × String)) demoAlg 0) demoAlg
        [(4, ""), (1, "hi"), (-3, "hello"), (20, "good bye")] 0
      = hash_by_summing_hashes_with demoSetIter demoPairRepr
          (UseDefaultHasher (Array (Int × String)) demoAlg 0) demoAlg
          #[(20, "good bye"), (4, ""), (-3, "hello"), (1, "hi")] 0 :=
  ⟨by decide, by decide,
   cross_structure_digest_eq demoMapIter demoMapIter demoPairRepr demoAlg 0 demoAlg
     [(4, ""), (1, "hi"), (-3, "hello"), (20, "good bye")]
     [(-3, "hello"), (1, "hi"), (4, ""), (20, "good bye")] 0 (by decide),
   cross_structure_digest_eq demoMapIter demoSetIter demoPairRepr demoAlg 0 demoAlg
     [(4, ""), (1, "hi"), (-3, "hello"), (20, "good bye")]
     #[(20, "good bye"), (4, ""), (-3, "hello"), (1, "hi")] 0 (by decide)⟩

/-- C5: an empty collection sums to zero, so the Combiner writes a zero
64-bit block into the outer hasher, with no type-tagging of the empty
case — two empty collections of different container and element types
receive the same digest. -/
theorem empty_collection_digest_zero {C₁ C₂ α₁ α₂ : Type}
    (iter₁ : C₁ → List α₁) (iter₂ : C₂ → List α₂)
    (repr₁ : α₁ → List Nat) (repr₂ : α₂ → List Nat)
    (BH₁ : BuildHasherFromFriend C₁) (BH₂ : BuildHasherFromFriend C₂)
    (H : HasherAlg) (A : C₁) (B : C₂) (s : H.State)
    (hA : iter₁ A = []) (hB : iter₂ B = []) :
    hash_by_summing_hashes_with iter₁ repr₁ BH₁ H A s = H.writeU64 s 0 ∧
    hash_by_summing_hashes_with iter₂ repr₂ BH₂ H B s
      = hash_by_summing_hashes_with iter₁ repr₁ BH₁ H A s := by
  rw [hash_with_eq_writeSum, hash_with_eq_writeSum, hA, hB]
  simp

/-- Iteration of the demo Nat set, a container of another element type. -/
abbrev demoNatSetIter : Array Nat → List Nat := fun a => a.toList

/-- Witness for C5: an empty map and an empty set of a different element
type, both under the fixed default context, write a zero block and
receive equal digests. -/
theorem empty_collection_digest_zero_witness :
    demoMapIter [] = [] ∧ demoNatSetIter #[] = [] ∧
    (hash_by_summing_hashes_with demoMapIter demoPairRepr
        (UseDefaultHasher (List (Int × String)) demoAlg 0) demoAlg [] 0
      = demoAlg.writeU64 0 0 ∧
     hash_by_summing_hashes_with demoNatSetIter demoRepr
        (UseDefaultHasher (Array Nat) demoAlg 0) demoAlg #[] 0
      = hash_by_summing_hashes_with demoMapIter demoPairRepr
          (UseDefaultHasher (List (Int × String)) demoAlg 0) demoAlg [] 0) :=
  ⟨rfl, rfl,
   empty_collection_digest_zero demoMapIter demoNatSetIter demoPairRepr demoRepr
     (UseDefaultHasher (List (Int × String)) demoAlg 0)
     (UseDefaultHasher (Array Nat) demoAlg 0) demoAlg [] #[] 0 rfl rfl⟩

/-- Splitting a mapped sum at one element: the occurrences of x
contribute count-many copies of its image, the remaining elements
contribute their own images. -/
theorem sum_map_split_count {α : Type} [DecidableEq α] (f : α → Nat) (x : α) :
    ∀ l : List α,
      (l.map f).sum
        = l.count x * f x + ((l.filter (fun y => y ≠ x)).map f).sum
  | [] => by simp
  | y :: l => by
    have ih := sum_map_split_count f x l
    by_cases h : y = x
    · subst h
      rw [List.map_cons, List.sum_cons, List.count_cons_self,
        List.filter_cons_of_neg (by simp), ih, Nat.succ_mul]
      ring
    · rw [List.map_cons, List.sum_cons, List.count_cons_of_ne (Ne.symm h),
        List.filter_cons_of_pos (by simp [h]), List.map_cons, List.sum_cons, ih]
      ring

/-- C6: each occurrence of a duplicated element contributes its own
per-element digest to the running sum — an element occurring k times in
the iteration contributes k times its digest modulo 2^64, with no
deduplication. -/
theorem duplicate_elements_each_contribute {C α : Type} [DecidableEq α]
    (iter : C → List α) (repr : α → List Nat) (BH : BuildHasherFromFriend C)
    (H : HasherAlg) (c : C) (s : H.State) (x : α) :
    hash_by_summing_hashes_with iter repr BH H c s
      = H.writeU64 s (((iter c).count x * perElementDigest repr BH c x
          + (((iter c).filter (fun y => y ≠ x)).map
              (perElementDigest repr BH c)).sum) % U64) := by
  rw [hash_with_eq_writeSum, sum_map_split_count]

/-- C7: the provided-hasher selector builds every per-element hasher from
the collection's own exposed context, and the default selector builds the
fixed default hasher for every peer; in both cases the per-element hasher
is the same for all elements of the collection. -/
theorem context_selection_uniform {C α : Type} {A : HasherAlg}
    (ph : ProvidesHasher C A) (iter : C → List α) (repr : α → List Nat)
    (D : HasherAlg) (d0 : D.State) (H : HasherAlg) (c : C) (s : H.State) :
    ((UseProvidedHasher ph).build_hasher_from c = (ph.hasher c).build_hasher
      ∧ (UseDefaultHasher C D d0).build_hasher_from c = d0)
    ∧ hash_by_summing_hashes_with iter repr (UseProvidedHasher ph) H c s
        = H.writeU64 s (((iter c).map
            (fun v => A.finish (hashInto A repr v (ph.hasher c).build_hasher))).sum % U64)
    ∧ hash_by_summing_hashes_with iter repr (UseDefaultHasher C D d0) H c s
        = H.writeU64 s (((iter c).map
            (fun v => D.finish (hashInto D repr v d0))).sum % U64) :=
  ⟨⟨rfl, rfl⟩,
   hash_with_eq_writeSum iter repr (UseProvidedHasher ph) H c s,
   hash_with_eq_writeSum iter repr (UseDefaultHasher C D d0) H c s⟩

/-- C8: the wrappers' hash computations delegate to the Combiner — the
hash of a SumHashesAnyCollection wrapper is exactly
hash_by_summing_hashes_with with its selector applied to the wrapped
collection, and the hash of a SumHashes wrapper is exactly the Combiner
with the provided-hasher selector applied to the wrapped collection. -/
theorem wrapper_hash_delegates {C α : Type} {A : HasherAlg}
    {BH : BuildHasherFromFriend C} (ph : ProvidesHasher C A)
    (iter : C → List α) (repr : α → List Nat) (H : HasherAlg)
    (w : SumHashesAnyCollection C BH) (v : SumHashes C ph) (s : H.State) :
    SumHashesAnyCollection.hashImpl iter repr H w s
      = hash_by_summing_hashes_with iter repr BH H w.inner s
    ∧ SumHashes.hashImpl iter repr H v s
      = hash_by_summing_hashes_with iter repr (UseProvidedHasher ph) H v.inner.inner s :=
  ⟨rfl, rfl⟩

/-- C9: hash_by_summing_hashes is exactly hash_by_summing_hashes_with
specialized to the default selector, and that selector ignores the peer
collection — it builds the same fixed default hasher for every peer. -/
theorem default_variant_eq_and_ignores_peer {C α : Type} (iter : C → List α)
    (repr : α → List Nat) (D : HasherAlg) (d0 : D.State) (H : HasherAlg)
    (c : C) (s : H.State) (a b : C) :
    hash_by_summing_hashes iter repr D d0 H c s
      = hash_by_summing_hashes_with iter repr (UseDefaultHasher C D d0) H c s
    ∧ (UseDefaultHasher C D d0).build_hasher_from a
      = (UseDefaultHasher C D d0).build_hasher_from b
    ∧ (UseDefaultHasher C D d0).build_hasher_from a = d0 :=
  ⟨rfl, rfl, rfl⟩

/-- C10: constructing a wrapper and unwrapping it is the identity with no
residual state, both for SumHashes and SumHashesAnyCollection and both
through new and through From. -/
theorem new_into_inner_identity {C : Type} {A : HasherAlg}
    (ph : ProvidesHasher C A) (BH : BuildHasherFromFriend C) (c c' : C) :
    (SumHashes.new ph c).into_inner = c
    ∧ (SumHashes.from' ph c).into_inner = c
    ∧ (SumHashesAnyCollection.new BH c').into_inner = c'
    ∧ (SumHashesAnyCollection.from' BH c').into_inner = c' :=
  ⟨rfl, rfl, rfl, rfl⟩
